import Mathlib

/-!
Verification development for the turbo-capture-service screenshot server
(`src/server.js`).  JavaScript strings are embedded as `List Char`; the
JS string operations used by the source (`split` on a character, `split`
on a substring, `includes`, `startsWith`, `toLowerCase`, `padStart`,
`parseInt`) are modelled as executable Lean functions below, and the
security helpers `isPrivateIP`, `normalizeIPv6`, `validateHostname` and
the `/screenshot` request handler are translated from the source on top
of them.  DNS resolution, WHATWG URL parsing and the browser are external
capabilities and enter as explicit parameters of the pipeline model.
-/

set_option maxRecDepth 4096

abbrev JStr := List Char

namespace Capture

/-- JS `s.split(sep)` for a single-character separator.
`"".split('.')` is `[""]`, and a trailing separator yields a trailing
empty part — exactly the semantics of `List.splitOn`. -/
def jsSplitChar (sep : Char) (s : JStr) : List JStr :=
  s.splitOn sep

/-- Index of the first occurrence of `sep` in `s` starting the scan at
accumulated offset `i` (helper for `findSubIdx`). -/
def findSubIdxGo (sep : JStr) : JStr → Nat → Option Nat
  | [], i => if sep = [] then some i else none
  | c :: cs, i =>
    if List.isPrefixOf sep (c :: cs) then some i
    else findSubIdxGo sep cs (i + 1)

/-- Index of the first occurrence of `sep` in `s`, JS `s.indexOf(sep)`
with `none` for `-1`. -/
def findSubIdx (sep s : JStr) : Option Nat :=
  findSubIdxGo sep s 0

/-- JS `s.includes(sub)`. -/
def jsIncludes (sub s : JStr) : Bool :=
  (findSubIdx sub s).isSome

/-- Fuelled worker for JS `s.split(sep)` with a (nonempty) string
separator: repeatedly cut at the first occurrence of `sep`.  The fuel is
only a termination device; `jsSplitSub` supplies more than enough. -/
def jsSplitSubGo (sep : JStr) : Nat → JStr → List JStr
  | 0, s => [s]
  | fuel + 1, s =>
    match findSubIdx sep s with
    | none => [s]
    | some i => s.take i :: jsSplitSubGo sep fuel (s.drop (i + sep.length))

/-- JS `s.split(sep)` for a string separator. -/
def jsSplitSub (sep s : JStr) : List JStr :=
  jsSplitSubGo sep (s.length + 1) s

/-- JS `s.toLowerCase()` (ASCII, which is all the source compares). -/
def jsToLower (s : JStr) : JStr := s.map Char.toLower

/-- JS `s.padStart(n, c)`. -/
def jsPadStart (n : Nat) (c : Char) (s : JStr) : JStr :=
  List.replicate (n - s.length) c ++ s

/-- Decimal value of a digit string (the value `parseInt` produces once
the digit prefix has been isolated).  JS numbers lose precision above
2^53, but every comparison the source makes against a `parseInt` result
uses small constants (10, 172, 192, 168, 169, 254, 16, 31), and a float
rounded from a value ≥ 2^53 can never compare equal to or inside those
small ranges, so the exact integer value is observationally equivalent
here. -/
def digitsValNat (s : JStr) : Nat :=
  s.foldl (fun acc c => acc * 10 + (c.toNat - '0'.toNat)) 0

/-- The maximal leading digit run of `s`, valued; `none` when there is
no leading digit (JS `NaN`). -/
def digitsOpt (s : JStr) : Option Nat :=
  let ds := s.takeWhile Char.isDigit
  if ds.isEmpty then none else some (digitsValNat ds)

/-- JS `parseInt(s, 10)`: skip leading whitespace, an optional sign,
then read the maximal digit run; `none` models `NaN`. -/
def jsParseInt (s : JStr) : Option Int :=
  let t := s.dropWhile Char.isWhitespace
  match t with
  | [] => none
  | c :: rest =>
    if c = '-' then (digitsOpt rest).map (fun n => -(n : Int))
    else if c = '+' then (digitsOpt rest).map (fun n => (n : Int))
    else (digitsOpt t).map (fun n => (n : Int))

/-- JS `x === k` where `x` is a `parseInt` result (`NaN` compares false). -/
def oEqI (o : Option Int) (k : Int) : Bool :=
  match o with
  | some v => v = k
  | none => false

/-- JS `x >= k` where `x` is a `parseInt` result (`NaN` compares false). -/
def oGeI (o : Option Int) (k : Int) : Bool :=
  match o with
  | some v => k ≤ v
  | none => false

/-- JS `x <= k` where `x` is a `parseInt` result (`NaN` compares false). -/
def oLeI (o : Option Int) (k : Int) : Bool :=
  match o with
  | some v => v ≤ k
  | none => false

/- String constants of the source, as `List Char`. -/

def s_localhost : JStr := "localhost".data
def s_127_0_0_1 : JStr := "127.0.0.1".data
def s_0_0_0_0 : JStr := "0.0.0.0".data
def s_colon1 : JStr := "::1".data
def s_coloncolon : JStr := "::".data
def s_fe80 : JStr := "fe80:".data
def s_fc00 : JStr := "fc00:".data
def s_fd00 : JStr := "fd00:".data
def s_mapped : JStr := "::ffff:".data
def s_0000 : JStr := "0000".data

/-- The private-range test the source performs inside the
`parts.length === 4` block of `isPrivateIP`, on the `parseInt` values of
the first two dot-separated components:
10.0.0.0/8, 172.16.0.0/12, 192.168.0.0/16, 169.254.0.0/16. -/
def ipv4RangeCheck (first second : Option Int) : Bool :=
  oEqI first 10 ||
  (oEqI first 172 && oGeI second 16 && oLeI second 31) ||
  (oEqI first 192 && oEqI second 168) ||
  (oEqI first 169 && oEqI second 254)

/-- `isPrivateIP` from `src/server.js`, fuelled to account for the
recursive call on the part after `'::ffff:'` (the source's early
`return true`s become a cascade of conditionals).  The fuel is a
termination device only: each recursive call is on a strict substring,
and `isPrivateIP` supplies length + 1 fuel. -/
def isPrivateIPGo : Nat → JStr → Bool
  | 0, _ => false
  | fuel + 1, ip =>
    -- localhost tokens
    if ip = s_127_0_0_1 || ip = s_localhost || ip = s_0_0_0_0 then true
    else
      -- private IPv4 ranges
      let parts := jsSplitChar '.' ip
      if parts.length = 4 &&
          ipv4RangeCheck (jsParseInt (parts.getD 0 []))
            (jsParseInt (parts.getD 1 [])) then true
      -- IPv6 localhost and private ranges
      else if ip = s_colon1 || ip = s_coloncolon ||
          List.isPrefixOf s_fe80 (jsToLower ip) ||
          List.isPrefixOf s_fc00 (jsToLower ip) ||
          List.isPrefixOf s_fd00 (jsToLower ip) then true
      -- IPv4-mapped IPv6 (::ffff:x.x.x.x)
      else if jsIncludes s_mapped (jsToLower ip) then
        match (jsSplitSub s_mapped ip).get? 1 with
        | some ipv4Part =>
          if ipv4Part.isEmpty then false else isPrivateIPGo fuel ipv4Part
        | none => false
      else false

/-- `isPrivateIP(ip)` from `src/server.js`. -/
def isPrivateIP (ip : JStr) : Bool :=
  isPrivateIPGo (ip.length + 1) ip

/-- The regex replace `/^\[|\]$/g` used by the source: remove one
leading `[` and one trailing `]`. -/
def stripBrackets (s : JStr) : JStr :=
  let s1 := match s with
    | '[' :: rest => rest
    | _ => s
  if s1.getLast? = some ']' then s1.dropLast else s1

/-- `normalizeIPv6(hostname)` from `src/server.js`.  `none` models the
exception thrown by `Array(missing)` when `missing` is negative (more
than 8 groups around a `::`); the caller catches it. -/
def normalizeIPv6 (hostname : JStr) : Option JStr :=
  let cleaned := stripBrackets hostname
  let expanded : Option JStr :=
    if jsIncludes s_coloncolon cleaned then
      let sides := jsSplitSub s_coloncolon cleaned
      let side0 := (sides.get? 0).getD []
      let left := if side0.isEmpty then [] else jsSplitChar ':' side0
      let side1 := (sides.get? 1).getD []
      let right := if side1.isEmpty then [] else jsSplitChar ':' side1
      if left.length + right.length > 8 then none
      else
        let missing := 8 - left.length - right.length
        some (List.intercalate [':']
          (left ++ List.replicate missing s_0000 ++ right))
    else some cleaned
  expanded.map fun c =>
    List.intercalate [':'] ((jsSplitChar ':' c).map (jsPadStart 4 '0'))

/- Verdicts of `validateHostname`: the source returns
`{ valid: false, reason }` or `{ valid: true }`. -/

/-- The object `validateHostname` resolves to. -/
structure AddressVerdict where
  valid : Bool
  reason : Option JStr
deriving DecidableEq

def s_reasonLocalhost : JStr := "Localhost access not allowed".data
def s_reasonMapped : JStr := "IPv4-mapped IPv6 not allowed".data
def s_reasonPrivate6 : JStr := "Private IPv6 addresses not allowed".data
def s_reasonPrivateIP : JStr := "Private IP addresses not allowed".data
def s_reasonResolves : JStr := "Domain resolves to private IP address".data
def s_loopbackFull : JStr := "0000:0000:0000:0000:0000:0000:0000:0001".data
def s_mappedFull : JStr := "0000:0000:0000:0000:0000:ffff:".data

/-- The part of `validateHostname` (src/server.js) that runs before any
DNS resolution: the localhost-token check, the normalized-IPv6 checks
(whose `normalizeIPv6` exception is swallowed, falling through), and the
direct `isPrivateIP` check.  Returns the denial reason, or `none` when
these literal checks pass. -/
def validateHostnameLiteral (hostname : JStr) : Option JStr :=
  if jsToLower hostname = s_localhost ∨ jsToLower hostname = s_127_0_0_1 ∨
      jsToLower hostname = s_0_0_0_0 ∨ jsToLower hostname = s_colon1 then
    some s_reasonLocalhost
  else
    let cleanedHostname := stripBrackets hostname
    let v6denial : Option JStr :=
      if cleanedHostname.contains ':' then
        match normalizeIPv6 cleanedHostname with
        | none => none   -- invalid IPv6 format: exception caught, continue
        | some normalized =>
          if normalized = s_loopbackFull then some s_reasonLocalhost
          else if List.isPrefixOf s_mappedFull normalized then
            some s_reasonMapped
          else if List.isPrefixOf s_fe80 normalized ||
              List.isPrefixOf s_fc00 normalized ||
              List.isPrefixOf s_fd00 normalized then
            some s_reasonPrivate6
          else none
      else none
    match v6denial with
    | some r => some r
    | none =>
      if isPrivateIP cleanedHostname then some s_reasonPrivateIP else none

/-- A DNS resolver capability: for a hostname, `none` models a rejected
resolution (the promise throwing), `some addrs` a resolved address
list. -/
abbrev DnsResolver := JStr → Option (List JStr)

/-- `validateHostname(hostname)` from `src/server.js`, with the two DNS
resolvers (`dns.resolve4`, `dns.resolve6`) passed as capabilities.  A
resolution failure of either family is swallowed; any resolved address
classified private denies. -/
def validateHostname (dns4 dns6 : DnsResolver) (hostname : JStr) :
    AddressVerdict :=
  match validateHostnameLiteral hostname with
  | some r => ⟨false, some r⟩
  | none =>
    let v6check : AddressVerdict :=
      match dns6 hostname with
      | some addresses =>
        if addresses.any isPrivateIP then ⟨false, some s_reasonResolves⟩
        else ⟨true, none⟩
      | none => ⟨true, none⟩   -- IPv6 resolution failed, that's okay
    match dns4 hostname with
    | some addresses =>
      if addresses.any isPrivateIP then ⟨false, some s_reasonResolves⟩
      else v6check
    | none => v6check          -- IPv4 resolution failed, that's okay

/- ------------------------------------------------------------------
The `/screenshot` request handler (the capture pipeline).
------------------------------------------------------------------ -/

/-- The fields of a WHATWG `URL` object the handler reads. -/
structure ParsedURL where
  protocol : JStr
  hostname : JStr
deriving DecidableEq

/-- The request body of `POST /screenshot`, after the destructuring
defaults of the source (`waitFor = 10000`, `viewportWidth = 1280`,
`viewportHeight = 800`, `fullPage = true`). -/
structure CaptureRequest where
  url : Option JStr
  waitFor : Int := 10000
  viewportWidth : Int := 1280
  viewportHeight : Int := 800
  fullPage : Bool := true

/-- External capabilities and behaviours of one handler run: the URL
parser, the DNS resolvers, and the outcome of each awaited browser step
(`Except.error m` models the promise rejecting with message `m`). -/
structure Env where
  parseURL : JStr → Option ParsedURL
  dns4 : DnsResolver
  dns6 : DnsResolver
  launch : Except JStr Unit
  newPage : Except JStr Unit
  setViewport : Except JStr Unit
  goto : Except JStr Unit
  pageUrl : JStr
  title : Except JStr JStr
  screenshot : Except JStr (List Nat)
  close : Except JStr Unit
  now : JStr

/-- Observable events of one handler run, used to state the temporal
claims (what was invoked, and how often). -/
inductive Event where
  | guardInvoked (hostname : JStr)
  | launchAttempted
  | browserLaunched
  | closeAttempted
  | closeFailed
deriving DecidableEq

/-- The handler's response: the JSON success payload of a capture, or an
error JSON with its HTTP status. -/
inductive Response where
  | success (finalUrl title : JStr) (data : List Nat) (size : Nat)
      (capturedAt : JStr) (viewportWidth viewportHeight : Int)
  | failure (status : Nat) (error : JStr) (message : Option JStr)
deriving DecidableEq

def s_urlRequired : JStr := "URL is required".data
def s_invalidUrl : JStr := "Invalid URL".data
def s_invalidUrlMsg : JStr := "Please provide a valid HTTP or HTTPS URL".data
def s_invalidProtocol : JStr := "Invalid protocol".data
def s_invalidProtocolMsg : JStr := "Only HTTP and HTTPS URLs are allowed".data
def s_http : JStr := "http:".data
def s_https : JStr := "https:".data
def s_forbiddenUrl : JStr := "Forbidden URL".data
def s_forbiddenUrlMsg : JStr :=
  "Cannot capture localhost or private network URLs".data
def s_invalidViewport : JStr := "Invalid viewport".data
def s_invalidViewportMsg : JStr :=
  "Viewport must be between 320x240 and 3840x2160".data
def s_invalidWaitFor : JStr := "Invalid waitFor".data
def s_invalidWaitForMsg : JStr :=
  "Wait time must be between 0 and 30000ms".data
def s_captureFailed : JStr := "Failed to capture screenshot".data
def s_redirectForbidden : JStr :=
  "URL redirected to a forbidden destination".data

/-- The body of the handler's `try` block, from `puppeteer.launch` to
building the success JSON: each step rejects with a message or
continues; the post-navigation final-URL validation (inner
`try`/`catch`) rethrows any parse failure or guard denial as the fixed
redirect message.  Returns the outcome together with the events of the
block. -/
def captureAttempt (env : Env) (req : CaptureRequest) :
    Except JStr Response × List Event :=
  match env.launch with
  | .error m => (.error m, [])
  | .ok _ =>
    let ev := [Event.browserLaunched]
    match env.newPage with
    | .error m => (.error m, ev)
    | .ok _ =>
      match env.setViewport with
      | .error m => (.error m, ev)
      | .ok _ =>
        match env.goto with
        | .error m => (.error m, ev)
        | .ok _ =>
          let finalUrl := env.pageUrl
          match env.title with
          | .error m => (.error m, ev)
          | .ok title =>
            -- inner try: new URL(finalUrl) + validateHostname; any
            -- failure is rethrown as the fixed redirect error
            match env.parseURL finalUrl with
            | none => (.error s_redirectForbidden, ev)
            | some finalParsedUrl =>
              let finalHostname := jsToLower finalParsedUrl.hostname
              let ev := ev ++ [Event.guardInvoked finalHostname]
              if (validateHostname env.dns4 env.dns6 finalHostname).valid then
                match env.screenshot with
                | .error m => (.error m, ev)
                | .ok data =>
                  (.ok (.success finalUrl title data data.length env.now
                    req.viewportWidth req.viewportHeight), ev)
              else (.error s_redirectForbidden, ev)

/-- The `app.post('/screenshot')` handler from `src/server.js`:
input validation (missing URL, URL parse, scheme), the source-side
hostname guard, viewport and wait validation, then the `try` block with
its `catch` (any rejection becomes a 500 with the error's message) and
`finally` (close the browser iff it was launched; a close failure is
only logged).  Returns the response and the run's event trace. -/
def screenshotHandler (env : Env) (req : CaptureRequest) :
    Response × List Event :=
  match req.url with
  | none => (.failure 400 s_urlRequired none, [])
  | some url =>
    match env.parseURL url with
    | none => (.failure 400 s_invalidUrl (some s_invalidUrlMsg), [])
    | some parsedUrl =>
      if parsedUrl.protocol ≠ s_http ∧ parsedUrl.protocol ≠ s_https then
        (.failure 400 s_invalidProtocol (some s_invalidProtocolMsg), [])
      else
        let hostname := jsToLower parsedUrl.hostname
        let hostnameValidation := validateHostname env.dns4 env.dns6 hostname
        let ev0 := [Event.guardInvoked hostname]
        if hostnameValidation.valid = false then
          (.failure 400 s_forbiddenUrl
            (some ((hostnameValidation.reason).getD s_forbiddenUrlMsg)), ev0)
        else if req.viewportWidth < 320 ∨ req.viewportWidth > 3840 ∨
            req.viewportHeight < 240 ∨ req.viewportHeight > 2160 then
          (.failure 400 s_invalidViewport (some s_invalidViewportMsg), ev0)
        else if req.waitFor < 0 ∨ req.waitFor > 30000 then
          (.failure 400 s_invalidWaitFor (some s_invalidWaitForMsg), ev0)
        else
          let attempt := captureAttempt env req
          -- finally: close iff `browser` was assigned, i.e. launch succeeded
          let evClose : List Event :=
            match env.launch with
            | .ok _ =>
              Event.closeAttempted ::
                (match env.close with
                 | .error _ => [Event.closeFailed]
                 | .ok _ => [])
            | .error _ => []
          let events := ev0 ++ [Event.launchAttempted] ++ attempt.2 ++ evClose
          match attempt.1 with
          | .ok r => (r, events)
          | .error m => (.failure 500 s_captureFailed (some m), events)

/- ------------------------------------------------------------------
Auxiliary predicates and concrete instruments used by the theorems.
------------------------------------------------------------------ -/

/-- The decimal digit characters. -/
def digitChars : JStr := "0123456789".data

/-- A decimal octet component of an IPv4 literal: a nonempty digit
string. -/
abbrev OctetStr (p : JStr) : Prop := p ≠ [] ∧ ∀ c ∈ p, c ∈ digitChars

/-- `s` is a dotted-decimal IPv4 literal with component values
`a.b.c.d`: splitting on `'.'` yields exactly four nonempty digit
strings with those decimal values. -/
def IPv4Lit (s : JStr) (a b c d : Nat) : Prop :=
  ∃ p0 p1 p2 p3, jsSplitChar '.' s = [p0, p1, p2, p3] ∧
    OctetStr p0 ∧ OctetStr p1 ∧ OctetStr p2 ∧ OctetStr p3 ∧
    digitsValNat p0 = a ∧ digitsValNat p1 = b ∧
    digitsValNat p2 = c ∧ digitsValNat p3 = d

/-- A DNS resolver that always fails (both families reject). -/
def noDns : DnsResolver := fun _ => none

def s_hostPub : JStr := "pub.example".data
def s_urlPub : JStr := "http://pub.example".data
def s_urlLocalhost : JStr := "http://localhost".data
def s_addrPub4 : JStr := "8.8.8.8".data
def s_addrPriv6 : JStr := "fe80::1".data
def s_urlRedir : JStr := "http://10.0.0.5/".data
def s_hostPriv : JStr := "10.0.0.5".data

/-- Resolver answering every query with the single public IPv4 address
8.8.8.8. -/
def dnsPub4 : DnsResolver := fun _ => some [s_addrPub4]

/-- Resolver answering every query with the single private IPv6 address
fe80::1. -/
def dnsPriv6 : DnsResolver := fun _ => some [s_addrPriv6]

/-- A URL-parser capability knowing the two URLs the concrete pipeline
runs below use. -/
def parseURLTest : JStr → Option ParsedURL := fun s =>
  if s = s_urlPub then some ⟨s_http, s_hostPub⟩
  else if s = s_urlLocalhost then some ⟨s_http, s_localhost⟩
  else if s = s_urlRedir then some ⟨s_http, s_hostPriv⟩
  else none

/-- A fully successful environment over `parseURLTest` with failing DNS;
the page ends on the (private) redirect target. -/
def envTest : Env where
  parseURL := parseURLTest
  dns4 := noDns
  dns6 := noDns
  launch := .ok ()
  newPage := .ok ()
  setViewport := .ok ()
  goto := .ok ()
  pageUrl := s_urlRedir
  title := .ok []
  screenshot := .ok [1, 2, 3]
  close := .ok ()
  now := []

/-- Request for `http://pub.example` with an out-of-range viewport
width (100 < 320). -/
def reqBadViewport : CaptureRequest := { url := some s_urlPub, viewportWidth := 100 }

/-- Request for `http://localhost` with otherwise default fields. -/
def reqLocalhost : CaptureRequest := { url := some s_urlLocalhost }

/-- Request for `http://pub.example` with default fields. -/
def reqPub : CaptureRequest := { url := some s_urlPub }

def s_1111 : JStr := "1.1.1.1".data
def s_10_0_0_1 : JStr := "10.0.0.1".data
def s_9999 : JStr := "9.9.9.9".data
def s_oct10 : JStr := "10".data
def s_oct0 : JStr := "0".data
def s_oct1 : JStr := "1".data
def s_oct8 : JStr := "8".data
def s_oct9 : JStr := "9".data
def s_fe80rest : JStr := "0000:0000:0000:0000:0000:0000:0001".data

/- ------------------------------------------------------------------
Helper lemmas: characters, parseInt, split and intercalate.
------------------------------------------------------------------ -/

theorem digit_isDigit {c : Char} (h : c ∈ digitChars) : c.isDigit = true := by
  revert c h
  decide

theorem digit_not_ws {c : Char} (h : c ∈ digitChars) : c.isWhitespace = false := by
  revert c h
  decide

theorem digit_ne_dash {c : Char} (h : c ∈ digitChars) : c ≠ '-' := by
  revert c h
  decide

theorem digit_ne_plus {c : Char} (h : c ∈ digitChars) : c ≠ '+' := by
  revert c h
  decide

theorem digit_ne_colon {c : Char} (h : c ∈ digitChars) : c ≠ ':' := by
  revert c h
  decide

theorem digit_toLower {c : Char} (h : c ∈ digitChars) : c.toLower = c := by
  revert c h
  decide

/-- `parseInt` on a nonempty all-digit string reads its decimal value. -/
theorem jsParseInt_octet {p : JStr} (h : OctetStr p) :
    jsParseInt p = some ((digitsValNat p : Nat) : Int) := by
  obtain ⟨hne, hdig⟩ := h
  cases p with
  | nil => exact absurd rfl hne
  | cons c cs =>
    have hc : c ∈ digitChars := hdig c (List.mem_cons_self c cs)
    have hdw : List.dropWhile Char.isWhitespace (c :: cs) = c :: cs := by
      rw [List.dropWhile_cons_of_neg]
      simp [digit_not_ws hc]
    have htw : List.takeWhile Char.isDigit (c :: cs) = c :: cs :=
      List.takeWhile_eq_self_iff.mpr fun x hx => digit_isDigit (hdig x hx)
    simp only [jsParseInt, hdw, if_neg (digit_ne_dash hc), if_neg (digit_ne_plus hc),
      digitsOpt, htw, List.isEmpty_cons, Option.map_some]
    rfl

/-- Components produced by `jsSplitChar` never contain the separator. -/
theorem splitChar_not_sep {sep : Char} {s : JStr} :
    ∀ p ∈ jsSplitChar sep s, sep ∉ p := by
  induction s with
  | nil =>
    intro p hp
    simp only [jsSplitChar, List.splitOn, List.splitOnP_nil, List.mem_singleton] at hp
    simp [hp]
  | cons c cs ih =>
    intro p hp
    simp only [jsSplitChar, List.splitOn] at hp ih
    rw [List.splitOnP_cons] at hp
    by_cases hc : c = sep
    · simp only [hc, beq_self_eq_true, if_pos] at hp
      rcases List.mem_cons.mp hp with rfl | hp
      · simp
      · exact ih p hp
    · simp only [beq_iff_eq, if_neg hc] at hp
      rcases hrest : List.splitOnP (· == sep) cs with _ | ⟨r, rs⟩
      · exact absurd hrest (List.splitOnP_ne_nil _ cs)
      · rw [hrest, List.modifyHead_cons] at hp
        rcases List.mem_cons.mp hp with rfl | hp
        · intro hmem
          rcases List.mem_cons.mp hmem with rfl | hmem
          · exact hc rfl
          · exact ih r (hrest ▸ List.mem_cons_self r rs) hmem
        · exact ih p (hrest ▸ List.mem_cons_of_mem r hp)

/-- `jsSplitChar` never returns the empty list of components. -/
theorem splitChar_ne_nil {sep : Char} {s : JStr} : jsSplitChar sep s ≠ [] :=
  List.splitOnP_ne_nil _ s

/-- Splitting a string with a separator-free block prepended extends
the first component by that block. -/
theorem splitChar_append {sep : Char} {xs ys p : JStr} {ps : List JStr}
    (hx : ∀ x ∈ xs, x ≠ sep) (hs : jsSplitChar sep ys = p :: ps) :
    jsSplitChar sep (xs ++ ys) = (xs ++ p) :: ps := by
  induction xs with
  | nil => simpa using hs
  | cons x xt ih =>
    have hx0 : x ≠ sep := hx x (List.mem_cons_self x xt)
    have ih2 := ih fun y hy => hx y (List.mem_cons_of_mem x hy)
    simp only [jsSplitChar, List.splitOn] at ih2 ⊢
    rw [List.cons_append, List.splitOnP_cons, if_neg (by simpa using hx0), ih2,
      List.modifyHead_cons, List.cons_append]

/-- The original string is recovered by joining the components of
`jsSplitChar` with the separator. -/
theorem intercalate_splitChar (sep : Char) (s : JStr) :
    List.intercalate [sep] (jsSplitChar sep s) = s :=
  List.intercalate_splitOn s sep

/-- Splitting the join of separator-free nonempty groups recovers the
groups. -/
theorem splitChar_intercalate {sep : Char} {gs : List JStr}
    (hmem : ∀ g ∈ gs, sep ∉ g) (hne : gs ≠ []) :
    jsSplitChar sep (List.intercalate [sep] gs) = gs :=
  List.splitOn_intercalate gs sep hmem hne

/-- A substring whose first character does not occur in `s` is not
found in `s`. -/
theorem findSubIdxGo_none {c0 : Char} {t s : JStr} (h : c0 ∉ s) :
    ∀ i, findSubIdxGo (c0 :: t) s i = none := by
  induction s with
  | nil => intro i; simp [findSubIdxGo]
  | cons c cs ih =>
    intro i
    have hc : c0 ≠ c := fun hne => h (hne ▸ List.mem_cons_self c cs)
    have hpre : List.isPrefixOf (c0 :: t) (c :: cs) = false := by
      simp only [List.isPrefixOf, Bool.and_eq_false_iff]
      exact Or.inl (by simpa using hc)
    simp only [findSubIdxGo, hpre, Bool.false_eq_true, if_false]
    exact ih (fun hm => h (List.mem_cons_of_mem c hm)) (i + 1)

theorem findSubIdx_none {c0 : Char} {t s : JStr} (h : c0 ∉ s) :
    findSubIdx (c0 :: t) s = none :=
  findSubIdxGo_none h 0

/-- A nonempty substring is found at index 0 of any extension of
itself. -/
theorem findSubIdx_append_self {c0 : Char} {t rest : JStr} :
    findSubIdx (c0 :: t) ((c0 :: t) ++ rest) = some 0 := by
  have hpre : List.isPrefixOf (c0 :: t) (c0 :: (t ++ rest)) = true :=
    List.isPrefixOf_iff_prefix.mpr (List.prefix_append (c0 :: t) rest)
  simp [findSubIdx, findSubIdxGo, hpre]

theorem jsIncludes_false {c0 : Char} {t s : JStr} (h : c0 ∉ s) :
    jsIncludes (c0 :: t) s = false := by
  simp [jsIncludes, findSubIdx_none h]

theorem jsIncludes_append_self {c0 : Char} {t rest : JStr} :
    jsIncludes (c0 :: t) ((c0 :: t) ++ rest) = true := by
  have h : findSubIdx (c0 :: t) (c0 :: (t ++ rest)) = some 0 :=
    findSubIdx_append_self
  simp [jsIncludes, h]

/-- Without an occurrence of the separator the split is a single
chunk, whatever the fuel. -/
theorem jsSplitSubGo_single {sep s : JStr} (h : findSubIdx sep s = none) :
    ∀ f, jsSplitSubGo sep f s = [s] := by
  intro f
  cases f with
  | zero => rfl
  | succ g => simp [jsSplitSubGo, h]

theorem jsSplitSub_single {sep s : JStr} (h : findSubIdx sep s = none) :
    jsSplitSub sep s = [s] :=
  jsSplitSubGo_single h _

/-- Splitting `sep ++ e` on `sep` when `sep` does not occur in `e`
gives an empty chunk and `e` (the shape of JS
`'::ffff:x'.split('::ffff:')`). -/
theorem jsSplitSub_self_append {c0 : Char} {t e : JStr} (h : c0 ∉ e) :
    jsSplitSub (c0 :: t) ((c0 :: t) ++ e) = [[], e] := by
  have h1 : findSubIdx (c0 :: t) (c0 :: (t ++ e)) = some 0 :=
    findSubIdx_append_self
  simp [jsSplitSub, jsSplitSubGo, h1, List.take_zero, Nat.zero_add,
    List.drop_left, findSubIdx_none h]

/-- `toLowerCase` distributes over concatenation. -/
theorem jsToLower_append (a b : JStr) :
    jsToLower (a ++ b) = jsToLower a ++ jsToLower b :=
  List.map_append Char.toLower a b

/-- A string of digits and dots is unchanged by `toLowerCase`. -/
theorem jsToLower_digits_dots {e : JStr}
    (h : ∀ c ∈ e, c ∈ digitChars ∨ c = '.') : jsToLower e = e := by
  induction e with
  | nil => rfl
  | cons c cs ih =>
    have hlc : Char.toLower c = c := by
      rcases h c (List.mem_cons_self c cs) with hd | rfl
      · exact digit_toLower hd
      · rfl
    have ih2 : List.map Char.toLower cs = cs :=
      ih fun x hx => h x (List.mem_cons_of_mem c hx)
    simp only [jsToLower, List.map_cons, hlc, ih2]

/-- Prefix test fails when the heads differ. -/
theorem isPrefixOf_cons_ne {a b : Char} {as bs : JStr} (h : a ≠ b) :
    List.isPrefixOf (a :: as) (b :: bs) = false := by
  simp only [List.isPrefixOf, Bool.and_eq_false_iff]
  exact Or.inl (by simpa using h)

/-- The IPv4 range test is false when the first component did not parse
(JS `NaN` comparisons). -/
theorem ipv4RangeCheck_none (o : Option Int) :
    ipv4RangeCheck none o = false := by
  simp [ipv4RangeCheck, oEqI]

/-- On inputs that do not take the IPv4-mapped branch the fuelled
classifier ignores its fuel. -/
theorem isPrivateIPGo_fuel {ip : JStr}
    (h : jsIncludes s_mapped (jsToLower ip) = false) (f g : Nat) :
    isPrivateIPGo (f + 1) ip = isPrivateIPGo (g + 1) ip := by
  simp only [isPrivateIPGo, h, Bool.false_eq_true, if_false]

/- ------------------------------------------------------------------
Claim theorems.
------------------------------------------------------------------ -/

/-- Claim C4: `classify` (`isPrivateIP`) returns private for every IPv4
literal in 10.0.0.0/8, 172.16.0.0/12, 192.168.0.0/16 and
169.254.0.0/16, and for each loopback token (`127.0.0.1`, `localhost`,
`0.0.0.0`, `::1`, `::`); it returns public (`false`) for `8.8.8.8` and
`1.1.1.1`. -/
theorem C4_classify_ranges :
    (∀ s a b c d, IPv4Lit s a b c d →
        (a = 10 ∨ (a = 172 ∧ 16 ≤ b ∧ b ≤ 31) ∨ (a = 192 ∧ b = 168) ∨
          (a = 169 ∧ b = 254)) →
        isPrivateIP s = true) ∧
    isPrivateIP s_127_0_0_1 = true ∧ isPrivateIP s_localhost = true ∧
    isPrivateIP s_0_0_0_0 = true ∧ isPrivateIP s_colon1 = true ∧
    isPrivateIP s_coloncolon = true ∧
    isPrivateIP s_addrPub4 = false ∧ isPrivateIP s_1111 = false := by
  refine ⟨?_, by decide, by decide, by decide, by decide, by decide,
    by decide, by decide⟩
  rintro s a b c d ⟨p0, p1, p2, p3, hsplit, h0, h1, h2, h3, hv0, hv1, hv2, hv3⟩
    hrange
  show isPrivateIPGo (s.length + 1) s = true
  by_cases htok :
      (decide (s = s_127_0_0_1) || decide (s = s_localhost) ||
        decide (s = s_0_0_0_0)) = true
  · simp [isPrivateIPGo, htok]
  · have hp0 : jsParseInt p0 = some ((a : Nat) : Int) := by
      rw [← hv0]; exact jsParseInt_octet h0
    have hp1 : jsParseInt p1 = some ((b : Nat) : Int) := by
      rw [← hv1]; exact jsParseInt_octet h1
    have hrc : ipv4RangeCheck (jsParseInt p0) (jsParseInt p1) = true := by
      rw [hp0, hp1]
      simp only [ipv4RangeCheck, oEqI, oGeI, oLeI, Bool.or_eq_true,
        Bool.and_eq_true, decide_eq_true_eq]
      rcases hrange with rfl | ⟨rfl, hb1, hb2⟩ | ⟨rfl, rfl⟩ | ⟨rfl, rfl⟩
      · omega
      · omega
      · omega
      · omega
    simp [isPrivateIPGo, htok, hsplit, hrc]

theorem C4_classify_ranges_witness :
    IPv4Lit s_10_0_0_1 10 0 0 1 ∧ isPrivateIP s_10_0_0_1 = true := by
  have hlit : IPv4Lit s_10_0_0_1 10 0 0 1 :=
    ⟨s_oct10, s_oct0, s_oct0, s_oct1, by decide, by decide, by decide,
      by decide, by decide, by decide, by decide, by decide, by decide⟩
  exact ⟨hlit, C4_classify_ranges.1 s_10_0_0_1 10 0 0 1 hlit (Or.inl rfl)⟩

/-- Claim C10 (counterexample): the claim says that for every string
with exactly four dot-separated components `isPrivateIP` decides
privateness solely from `parseInt` of the first two components.
`127.0.0.1` has four dot-separated components, its range check on the
first two parsed components is false, yet it is classified private by
the earlier exact loopback-token rule. -/
theorem C10_counterexample_loopback_token :
    (jsSplitChar '.' s_127_0_0_1).length = 4 ∧
    ipv4RangeCheck (jsParseInt ((jsSplitChar '.' s_127_0_0_1).getD 0 []))
      (jsParseInt ((jsSplitChar '.' s_127_0_0_1).getD 1 [])) = false ∧
    isPrivateIP s_127_0_0_1 = true := by
  refine ⟨by decide, by decide, by decide⟩

/-- Claim C10 (amended): for every string with exactly four
dot-separated components that is not one of the exact loopback tokens,
is not an IPv6 token and does not start (lower-cased) with an IPv6
private prefix, and whose lower-cased form does not contain `::ffff:`,
`isPrivateIP` is decided exactly by the `parseInt`-based range check on
the first two components — with no validation that the components are
numeric octets in 0–255. -/
theorem C10_amended_range_check (s : JStr)
    (h4 : (jsSplitChar '.' s).length = 4)
    (htok : (decide (s = s_127_0_0_1) || decide (s = s_localhost) ||
      decide (s = s_0_0_0_0)) = false)
    (hv6 : (decide (s = s_colon1) || decide (s = s_coloncolon) ||
      List.isPrefixOf s_fe80 (jsToLower s) ||
      List.isPrefixOf s_fc00 (jsToLower s) ||
      List.isPrefixOf s_fd00 (jsToLower s)) = false)
    (hmap : jsIncludes s_mapped (jsToLower s) = false) :
    isPrivateIP s =
      ipv4RangeCheck (jsParseInt ((jsSplitChar '.' s).getD 0 []))
        (jsParseInt ((jsSplitChar '.' s).getD 1 [])) := by
  show isPrivateIPGo (s.length + 1) s = _
  have h44 : decide ((4 : Nat) = 4) = true := by decide
  simp only [isPrivateIPGo, htok, hv6, hmap, Bool.false_eq_true, if_false,
    h4, h44, decide_True, Bool.true_and]
  by_cases hrc : ipv4RangeCheck (jsParseInt ((jsSplitChar '.' s).getD 0 []))
      (jsParseInt ((jsSplitChar '.' s).getD 1 [])) = true
  · rw [if_pos hrc, hrc]
  · rw [if_neg hrc]
    exact (Bool.eq_false_iff.mpr hrc).symm

theorem C10_amended_range_check_witness :
    (jsSplitChar '.' s_9999).length = 4 ∧
    isPrivateIP s_9999 =
      ipv4RangeCheck (jsParseInt ((jsSplitChar '.' s_9999).getD 0 []))
        (jsParseInt ((jsSplitChar '.' s_9999).getD 1 [])) :=
  ⟨by decide, C10_amended_range_check s_9999 (by decide) (by decide)
    (by decide) (by decide)⟩

/-- Claim C1: for every hostname whose DNS resolution (A or AAAA
family) returns at least one address classified as private,
`validateHostname` returns a denied verdict. -/
theorem C1_any_private_resolution_denied (dns4 dns6 : DnsResolver)
    (h : JStr)
    (hres : (∃ addrs, dns4 h = some addrs ∧ addrs.any isPrivateIP = true) ∨
            (∃ addrs, dns6 h = some addrs ∧ addrs.any isPrivateIP = true)) :
    (validateHostname dns4 dns6 h).valid = false := by
  unfold validateHostname
  cases hl : validateHostnameLiteral h with
  | some r => rfl
  | none =>
    rcases hres with ⟨as4, h4, hany⟩ | ⟨as6, h6, hany⟩
    · simp [h4, hany]
    · cases h4 : dns4 h with
      | none => simp [h4, h6, hany]
      | some as4 =>
        by_cases hany4 : as4.any isPrivateIP = true
        · simp [h4, hany4]
        · simp [h4, Bool.eq_false_iff.mpr hany4, h6, hany]

/-- Instance of C1: a hostname resolving under IPv4 to the public
8.8.8.8 and under IPv6 to the private fe80::1 is still denied. -/
theorem C1_any_private_resolution_denied_witness :
    (∃ addrs, dnsPriv6 s_hostPub = some addrs ∧
      addrs.any isPrivateIP = true) ∧
    (validateHostname dnsPub4 dnsPriv6 s_hostPub).valid = false :=
  ⟨⟨[s_addrPriv6], rfl, by decide⟩,
    C1_any_private_resolution_denied dnsPub4 dnsPriv6 s_hostPub
      (Or.inr ⟨[s_addrPriv6], rfl, by decide⟩)⟩

/-- Claim C9: a hostname that passes the literal checks and for which
both A and AAAA resolution fail is permitted. -/
theorem C9_resolution_failure_permitted (dns4 dns6 : DnsResolver)
    (h : JStr) (hlit : validateHostnameLiteral h = none)
    (h4 : dns4 h = none) (h6 : dns6 h = none) :
    (validateHostname dns4 dns6 h).valid = true := by
  simp [validateHostname, hlit, h4, h6]

theorem C9_resolution_failure_permitted_witness :
    validateHostnameLiteral s_hostPub = none ∧
    (validateHostname noDns noDns s_hostPub).valid = true :=
  ⟨by decide, C9_resolution_failure_permitted noDns noDns s_hostPub
    (by decide) rfl rfl⟩

/-- Claim C8: `normalizeIPv6` expands a single `::` compression token by
inserting `8 - leftGroups - rightGroups` zero groups between the sides
and left-padding every group to 4 hex digits; in particular
`normalizeIPv6 "::1"` is the full loopback expansion and
`normalizeIPv6 "fe80::1"` starts with `"fe80:"`. -/
theorem C8_normalize_expansion :
    (∀ s l0 r0 left right, stripBrackets s = s →
      jsSplitSub s_coloncolon s = [l0, r0] →
      left = (if l0.isEmpty then [] else jsSplitChar ':' l0) →
      right = (if r0.isEmpty then [] else jsSplitChar ':' r0) →
      left.length + right.length ≤ 8 →
      normalizeIPv6 s = some (List.intercalate [':']
        ((left ++ List.replicate (8 - left.length - right.length) s_0000 ++
          right).map (jsPadStart 4 '0')))) ∧
    normalizeIPv6 s_colon1 = some s_loopbackFull ∧
    (∃ rest, normalizeIPv6 s_addrPriv6 = some (s_fe80 ++ rest)) := by
  refine ⟨?_, by decide, ⟨s_fe80rest, by decide⟩⟩
  rintro s l0 r0 left right hsb hsides hleft hright hlen
  have hinc : jsIncludes s_coloncolon s = true := by
    rcases hx : findSubIdx s_coloncolon s with _ | i
    · have h1 := jsSplitSub_single hx
      rw [hsides] at h1
      exact absurd h1 (by simp)
    · simp [jsIncludes, hx]
  have hglen : (left ++ List.replicate (8 - left.length - right.length)
      s_0000 ++ right).length = 8 := by
    simp only [List.length_append, List.length_replicate]
    omega
  have hgne : (left ++ List.replicate (8 - left.length - right.length)
      s_0000 ++ right) ≠ [] := by
    intro hnil
    rw [hnil] at hglen
    simp at hglen
  have hmemL : ∀ g ∈ left, ':' ∉ g := by
    rw [hleft]
    by_cases hl0 : l0.isEmpty
    · simp [hl0]
    · simp only [hl0, Bool.false_eq_true, if_false]
      exact fun g hg => splitChar_not_sep g hg
  have hmemR : ∀ g ∈ right, ':' ∉ g := by
    rw [hright]
    by_cases hr0 : r0.isEmpty
    · simp [hr0]
    · simp only [hr0, Bool.false_eq_true, if_false]
      exact fun g hg => splitChar_not_sep g hg
  have hmem : ∀ g ∈ left ++ List.replicate (8 - left.length - right.length)
      s_0000 ++ right, ':' ∉ g := by
    intro g hg
    rcases List.mem_append.mp hg with hg1 | hgr
    · rcases List.mem_append.mp hg1 with hgl | hgm
      · exact hmemL g hgl
      · have hq : g = s_0000 := List.eq_of_mem_replicate hgm
        subst hq
        decide
    · exact hmemR g hgr
  simp only [normalizeIPv6, hsb, hinc, if_true, hsides,
    List.get?_cons_zero, List.get?_cons_succ, Option.getD_some]
  rw [← hleft, ← hright, if_neg (by omega)]
  simp only [Option.map_some', splitChar_intercalate hmem hgne]

theorem C8_normalize_expansion_witness :
    jsSplitSub s_coloncolon s_colon1 = [[], s_oct1] ∧
    normalizeIPv6 s_colon1 = some (List.intercalate [':']
      ((([] : List JStr) ++
        List.replicate (8 - ([] : List JStr).length -
          (jsSplitChar ':' s_oct1).length) s_0000 ++
        jsSplitChar ':' s_oct1).map (jsPadStart 4 '0'))) :=
  ⟨by decide, C8_normalize_expansion.1 s_colon1 [] s_oct1 []
    (jsSplitChar ':' s_oct1) (by decide) (by decide) (by decide) (by decide)
    (by decide)⟩

/-- Claim C2: for every request whose hostname is denied by the
source-side AddressGuard check, the pipeline fails with the
ForbiddenDestination response (400, "Forbidden URL") and no browser
launch is ever attempted. -/
theorem C2_source_guard_denial_no_launch (env : Env) (req : CaptureRequest)
    (url : JStr) (pu : ParsedURL)
    (hurl : req.url = some url) (hp : env.parseURL url = some pu)
    (hproto : pu.protocol = s_http ∨ pu.protocol = s_https)
    (hval : (validateHostname env.dns4 env.dns6
      (jsToLower pu.hostname)).valid = false) :
    (∃ m, (screenshotHandler env req).1 =
      Response.failure 400 s_forbiddenUrl (some m)) ∧
    Event.launchAttempted ∉ (screenshotHandler env req).2 ∧
    Event.browserLaunched ∉ (screenshotHandler env req).2 := by
  have hcond : ¬(pu.protocol ≠ s_http ∧ pu.protocol ≠ s_https) := by
    rcases hproto with hq | hq <;> simp [hq]
  simp only [screenshotHandler, hurl, hp, if_neg hcond, hval, if_pos rfl]
  refine ⟨⟨_, rfl⟩, by simp, by simp⟩

theorem C2_source_guard_denial_no_launch_witness :
    (validateHostname envTest.dns4 envTest.dns6
      (jsToLower s_localhost)).valid = false ∧
    ((∃ m, (screenshotHandler envTest reqLocalhost).1 =
      Response.failure 400 s_forbiddenUrl (some m)) ∧
     Event.launchAttempted ∉ (screenshotHandler envTest reqLocalhost).2 ∧
     Event.browserLaunched ∉ (screenshotHandler envTest reqLocalhost).2) :=
  ⟨by decide,
    C2_source_guard_denial_no_launch envTest reqLocalhost s_urlLocalhost
      ⟨s_http, s_localhost⟩ rfl (by decide) (Or.inl rfl) (by decide)⟩

/-- Claim C3: for every capture whose post-navigation final URL has a
hostname denied by AddressGuard, the operation aborts with the distinct
redirect error (500, "URL redirected to a forbidden destination") and no
success response is returned, even though navigation already
happened. -/
theorem C3_redirect_guard_denial_no_result (env : Env)
    (req : CaptureRequest) (url : JStr) (pu fu : ParsedURL) (t : JStr)
    (hurl : req.url = some url) (hp : env.parseURL url = some pu)
    (hproto : pu.protocol = s_http ∨ pu.protocol = s_https)
    (hval : (validateHostname env.dns4 env.dns6
      (jsToLower pu.hostname)).valid = true)
    (hvw : ¬(req.viewportWidth < 320 ∨ req.viewportWidth > 3840 ∨
      req.viewportHeight < 240 ∨ req.viewportHeight > 2160))
    (hwf : ¬(req.waitFor < 0 ∨ req.waitFor > 30000))
    (hl : env.launch = .ok ()) (hnp : env.newPage = .ok ())
    (hsv : env.setViewport = .ok ()) (hg : env.goto = .ok ())
    (ht : env.title = .ok t)
    (hfp : env.parseURL env.pageUrl = some fu)
    (hfv : (validateHostname env.dns4 env.dns6
      (jsToLower fu.hostname)).valid = false) :
    (screenshotHandler env req).1 =
      Response.failure 500 s_captureFailed (some s_redirectForbidden) := by
  have hcond : ¬(pu.protocol ≠ s_http ∧ pu.protocol ≠ s_https) := by
    rcases hproto with hq | hq <;> simp [hq]
  have hvalne : ¬((validateHostname env.dns4 env.dns6
      (jsToLower pu.hostname)).valid = false) := by
    simp [hval]
  have hatt : (captureAttempt env req).1 = .error s_redirectForbidden := by
    simp only [captureAttempt, hl, hnp, hsv, hg, ht, hfp, hfv,
      Bool.false_eq_true, if_false]
  simp only [screenshotHandler, hurl, hp, if_neg hcond, if_neg hvalne,
    if_neg hvw, if_neg hwf, hatt]

theorem C3_redirect_guard_denial_no_result_witness :
    (validateHostname envTest.dns4 envTest.dns6
      (jsToLower s_hostPriv)).valid = false ∧
    (screenshotHandler envTest reqPub).1 =
      Response.failure 500 s_captureFailed (some s_redirectForbidden) :=
  ⟨by decide,
    C3_redirect_guard_denial_no_result envTest reqPub s_urlPub
      ⟨s_http, s_hostPub⟩ ⟨s_http, s_hostPriv⟩ [] rfl (by decide)
      (Or.inl rfl) (by decide) (by decide) (by decide) rfl rfl rfl rfl rfl
      (by decide) (by decide)⟩

/-- The try-block body never attempts a close, and its trace records a
successful launch exactly when the launch capability succeeds. -/
theorem captureAttempt_trace (env : Env) (req : CaptureRequest) :
    (captureAttempt env req).2.count Event.closeAttempted = 0 ∧
    (Event.browserLaunched ∈ (captureAttempt env req).2 ↔
      ∃ u, env.launch = Except.ok u) := by
  unfold captureAttempt
  repeat (any_goals split)
  all_goals
    try (rcases hq : env.parseURL env.pageUrl with _ | fu <;> simp only [hq])
  repeat (any_goals split)
  all_goals simp_all [List.count_append, List.count_cons]

/-- Exactly one close is attempted when and only when a browser was
launched, on every exit path of the handler. -/
theorem handler_close_count (env : Env) (req : CaptureRequest) :
    (screenshotHandler env req).2.count Event.closeAttempted =
      if Event.browserLaunched ∈ (screenshotHandler env req).2 then 1
      else 0 := by
  obtain ⟨hcnt, hmem⟩ := captureAttempt_trace env req
  unfold screenshotHandler
  rcases hu : req.url with _ | url
  · simp [hu]
  · simp only [hu]
    rcases hp : env.parseURL url with _ | pu
    · simp [hp]
    · simp only [hp]
      by_cases hproto : pu.protocol ≠ s_http ∧ pu.protocol ≠ s_https
      · simp [if_pos hproto]
      · simp only [if_neg hproto]
        by_cases hval : (validateHostname env.dns4 env.dns6
            (jsToLower pu.hostname)).valid = false
        · simp [if_pos hval]
        · simp only [if_neg hval]
          by_cases hvw : req.viewportWidth < 320 ∨ req.viewportWidth > 3840 ∨
              req.viewportHeight < 240 ∨ req.viewportHeight > 2160
          · simp [if_pos hvw]
          · simp only [if_neg hvw]
            by_cases hwf : req.waitFor < 0 ∨ req.waitFor > 30000
            · simp [if_pos hwf]
            · simp only [if_neg hwf]
              rcases hl : env.launch with m | u
              · rcases hatt : (captureAttempt env req).1 with m2 | r <;>
                  simp_all [List.count_append, List.count_cons]
              · rcases hc : env.close with m3 | u3 <;>
                  rcases hatt : (captureAttempt env req).1 with m2 | r <;>
                    simp_all [List.count_append, List.count_cons]

/-- The outcome of the browser-close capability never changes the
handler's response. -/
theorem handler_fst_close (env : Env) (req : CaptureRequest)
    (c : Except JStr Unit) :
    (screenshotHandler { env with close := c } req).1 =
      (screenshotHandler env req).1 := by
  have hca : captureAttempt { env with close := c } req =
      captureAttempt env req := rfl
  unfold screenshotHandler
  dsimp only
  rw [hca]
  rcases hu : req.url with _ | url
  · simp [hu]
  · simp only [hu]
    rcases hp : env.parseURL url with _ | pu
    · simp [hp]
    · simp only [hp]
      by_cases hproto : pu.protocol ≠ s_http ∧ pu.protocol ≠ s_https
      · simp only [if_pos hproto]
      · simp only [if_neg hproto]
        by_cases hval : (validateHostname env.dns4 env.dns6
            (jsToLower pu.hostname)).valid = false
        · simp only [if_pos hval]
        · simp only [if_neg hval]
          by_cases hvw : req.viewportWidth < 320 ∨ req.viewportWidth > 3840 ∨
              req.viewportHeight < 240 ∨ req.viewportHeight > 2160
          · simp only [if_pos hvw]
          · simp only [if_neg hvw]
            by_cases hwf : req.waitFor < 0 ∨ req.waitFor > 30000
            · simp only [if_pos hwf]
            · simp only [if_neg hwf]
              rcases hatt : (captureAttempt env req).1 with m | r <;>
                simp [hatt]

/-- Claim C6: for every handler run in which a browser session was
launched, exactly one close of that session is attempted (and none
otherwise), on every exit path; and a failure of the close itself never
changes the response returned to the caller. -/
theorem C6_close_exactly_once (env : Env) (req : CaptureRequest)
    (c : Except JStr Unit) :
    ((screenshotHandler env req).2.count Event.closeAttempted =
      if Event.browserLaunched ∈ (screenshotHandler env req).2 then 1
      else 0) ∧
    (screenshotHandler { env with close := c } req).1 =
      (screenshotHandler env req).1 :=
  ⟨handler_close_count env req, handler_fst_close env req c⟩

/-- Claim C7 (counterexample): on a request with a parseable public URL
and an out-of-range viewport width, the handler does report the
InvalidInput viewport error — but only after invoking AddressGuard
(`validateHostname`, with its DNS resolution) on the request hostname,
contradicting the claim that InvalidInput is reported without invoking
AddressGuard. -/
theorem C7_counterexample_guard_before_viewport :
    (screenshotHandler envTest reqBadViewport).1 =
      Response.failure 400 s_invalidViewport (some s_invalidViewportMsg) ∧
    Event.guardInvoked (jsToLower s_hostPub) ∈
      (screenshotHandler envTest reqBadViewport).2 := by
  constructor
  · decide
  · decide

/-- Claim C7 (amended): a missing URL, an unparseable URL or a
disallowed scheme is reported immediately with an empty event trace (no
AddressGuard invocation, no browser activity); an out-of-range viewport
or wait on a request whose hostname was permitted is still reported as
InvalidInput and never touches the browser, but only after the
source-side AddressGuard check has run. -/
theorem C7_amended_input_validation :
    (∀ env req, req.url = none →
      screenshotHandler env req =
        (Response.failure 400 s_urlRequired none, [])) ∧
    (∀ env req url, req.url = some url → env.parseURL url = none →
      screenshotHandler env req =
        (Response.failure 400 s_invalidUrl (some s_invalidUrlMsg), [])) ∧
    (∀ env req url pu, req.url = some url → env.parseURL url = some pu →
      pu.protocol ≠ s_http → pu.protocol ≠ s_https →
      screenshotHandler env req =
        (Response.failure 400 s_invalidProtocol
          (some s_invalidProtocolMsg), [])) ∧
    (∀ env req url pu, req.url = some url → env.parseURL url = some pu →
      (pu.protocol = s_http ∨ pu.protocol = s_https) →
      (validateHostname env.dns4 env.dns6
        (jsToLower pu.hostname)).valid = true →
      (req.viewportWidth < 320 ∨ req.viewportWidth > 3840 ∨
        req.viewportHeight < 240 ∨ req.viewportHeight > 2160) →
      (screenshotHandler env req).1 =
          Response.failure 400 s_invalidViewport (some s_invalidViewportMsg) ∧
        Event.launchAttempted ∉ (screenshotHandler env req).2 ∧
        Event.browserLaunched ∉ (screenshotHandler env req).2) ∧
    (∀ env req url pu, req.url = some url → env.parseURL url = some pu →
      (pu.protocol = s_http ∨ pu.protocol = s_https) →
      (validateHostname env.dns4 env.dns6
        (jsToLower pu.hostname)).valid = true →
      ¬(req.viewportWidth < 320 ∨ req.viewportWidth > 3840 ∨
        req.viewportHeight < 240 ∨ req.viewportHeight > 2160) →
      (req.waitFor < 0 ∨ req.waitFor > 30000) →
      (screenshotHandler env req).1 =
          Response.failure 400 s_invalidWaitFor (some s_invalidWaitForMsg) ∧
        Event.launchAttempted ∉ (screenshotHandler env req).2 ∧
        Event.browserLaunched ∉ (screenshotHandler env req).2) := by
  refine ⟨?_, ?_, ?_, ?_, ?_⟩
  · intro env req hu
    simp [screenshotHandler, hu]
  · intro env req url hu hp
    simp [screenshotHandler, hu, hp]
  · intro env req url pu hu hp h1 h2
    simp only [screenshotHandler, hu, hp, if_pos (And.intro h1 h2)]
  · intro env req url pu hu hp hproto hval hvw
    have hcond : ¬(pu.protocol ≠ s_http ∧ pu.protocol ≠ s_https) := by
      rcases hproto with hq | hq <;> simp [hq]
    have hvalne : ¬((validateHostname env.dns4 env.dns6
        (jsToLower pu.hostname)).valid = false) := by
      simp [hval]
    simp only [screenshotHandler, hu, hp, if_neg hcond, if_neg hvalne,
      if_pos hvw]
    exact ⟨by simp, by simp, by simp⟩
  · intro env req url pu hu hp hproto hval hvw hwf
    have hcond : ¬(pu.protocol ≠ s_http ∧ pu.protocol ≠ s_https) := by
      rcases hproto with hq | hq <;> simp [hq]
    have hvalne : ¬((validateHostname env.dns4 env.dns6
        (jsToLower pu.hostname)).valid = false) := by
      simp [hval]
    simp only [screenshotHandler, hu, hp, if_neg hcond, if_neg hvalne,
      if_neg hvw, if_pos hwf]
    exact ⟨by simp, by simp, by simp⟩

theorem C7_amended_input_validation_witness :
    (validateHostname envTest.dns4 envTest.dns6
      (jsToLower s_hostPub)).valid = true ∧
    ((screenshotHandler envTest reqBadViewport).1 =
        Response.failure 400 s_invalidViewport (some s_invalidViewportMsg) ∧
      Event.launchAttempted ∉ (screenshotHandler envTest reqBadViewport).2 ∧
      Event.browserLaunched ∉ (screenshotHandler envTest reqBadViewport).2) :=
  ⟨by decide,
    C7_amended_input_validation.2.2.2.1 envTest reqBadViewport s_urlPub
      ⟨s_http, s_hostPub⟩ rfl (by decide) (Or.inl rfl) (by decide)
      (by decide)⟩

/-- Claim C5: for every IPv4-mapped IPv6 literal `::ffff:a.b.c.d`,
classification recurses into the IPv4 rules on the embedded dotted-quad
literal, so the mapped literal is classified private exactly when the
embedded IPv4 literal is (and a mapped public address is not rejected as
private by this rule). -/
theorem C5_mapped_ipv6_recurses (e : JStr) (a b c d : Nat)
    (h : IPv4Lit e a b c d) :
    isPrivateIP (s_mapped ++ e) = isPrivateIP e := by
  obtain ⟨p0, p1, p2, p3, hsplit, h0, h1, h2, h3, hv0, hv1, hv2, hv3⟩ := h
  have he : List.intercalate ['.'] [p0, p1, p2, p3] = e := by
    rw [← hsplit]
    exact intercalate_splitChar '.' e
  have hchars : ∀ c ∈ e, c ∈ digitChars ∨ c = '.' := by
    intro c hc
    rw [← he] at hc
    simp only [List.intercalate, List.intersperse] at hc
    simp only [List.flatten, List.mem_append, List.mem_cons,
      List.append_nil, List.not_mem_nil, or_false] at hc
    rcases hc with hc | hc | hc | hc | hc | hc | hc
    · exact Or.inl (h0.2 c hc)
    · exact Or.inr hc
    · exact Or.inl (h1.2 c hc)
    · exact Or.inr hc
    · exact Or.inl (h2.2 c hc)
    · exact Or.inr hc
    · exact Or.inl (h3.2 c hc)
  have hcolon : ':' ∉ e := by
    intro hmm
    rcases hchars ':' hmm with hd | hq
    · exact digit_ne_colon hd rfl
    · exact absurd hq (by decide)
  have hene : e ≠ [] := by
    intro hnil
    rw [hnil] at hsplit
    have h1 : jsSplitChar '.' [] = [[]] := rfl
    rw [h1] at hsplit
    have h14 := congrArg List.length hsplit
    simp at h14
  have hee : e.isEmpty = false := by
    cases e with
    | nil => exact absurd rfl hene
    | cons c cs => rfl
  have hlow : jsToLower e = e := jsToLower_digits_dots hchars
  have hm : s_mapped = ':' :: [':', 'f', 'f', 'f', 'f', ':'] := by decide
  have htok : (decide (s_mapped ++ e = s_127_0_0_1) ||
      decide (s_mapped ++ e = s_localhost) ||
      decide (s_mapped ++ e = s_0_0_0_0)) = false := rfl
  have hv6tok : (decide (s_mapped ++ e = s_colon1) ||
      decide (s_mapped ++ e = s_coloncolon) ||
      List.isPrefixOf s_fe80 (jsToLower (s_mapped ++ e)) ||
      List.isPrefixOf s_fc00 (jsToLower (s_mapped ++ e)) ||
      List.isPrefixOf s_fd00 (jsToLower (s_mapped ++ e))) = false := rfl
  have hsplitFull : jsSplitChar '.' (s_mapped ++ e) =
      (s_mapped ++ p0) :: [p1, p2, p3] :=
    splitChar_append (by decide) hsplit
  have hpfull : jsParseInt (s_mapped ++ p0) = none := by
    rw [hm]
    rfl
  have hcond4 : (decide ((jsSplitChar '.' (s_mapped ++ e)).length = 4) &&
      ipv4RangeCheck
        (jsParseInt ((jsSplitChar '.' (s_mapped ++ e)).getD 0 []))
        (jsParseInt ((jsSplitChar '.' (s_mapped ++ e)).getD 1 []))) =
        false := by
    rw [hsplitFull]
    simp [hpfull, ipv4RangeCheck_none]
  have hlowFull : jsToLower (s_mapped ++ e) = s_mapped ++ e := by
    rw [jsToLower_append, hlow]
    have hq : jsToLower s_mapped = s_mapped := by decide
    rw [hq]
  have hincl : jsIncludes s_mapped (jsToLower (s_mapped ++ e)) = true := by
    rw [hlowFull, hm]
    exact jsIncludes_append_self
  have hsub : jsSplitSub s_mapped (s_mapped ++ e) = [[], e] := by
    rw [hm]
    exact jsSplitSub_self_append hcolon
  have hmapE : jsIncludes s_mapped (jsToLower e) = false := by
    rw [hlow, hm]
    exact jsIncludes_false hcolon
  have hlen7 : (s_mapped ++ e).length + 1 = ((6 + e.length) + 1) + 1 := by
    rw [hm]
    simp
    omega
  show isPrivateIPGo ((s_mapped ++ e).length + 1) (s_mapped ++ e) =
    isPrivateIP e
  rw [hlen7]
  conv_lhs => rw [isPrivateIPGo]
  simp only [htok, hcond4, hv6tok, hincl, hsub, hee, Bool.false_eq_true,
    if_false, if_true, List.get?_cons_succ, List.get?_cons_zero]
  exact isPrivateIPGo_fuel hmapE (6 + e.length) e.length

theorem C5_mapped_ipv6_recurses_witness :
    IPv4Lit s_addrPub4 8 8 8 8 ∧
    isPrivateIP (s_mapped ++ s_addrPub4) = isPrivateIP s_addrPub4 ∧
    isPrivateIP s_addrPub4 = false := by
  have hlit : IPv4Lit s_addrPub4 8 8 8 8 :=
    ⟨s_oct8, s_oct8, s_oct8, s_oct8, by decide, by decide, by decide,
      by decide, by decide, by decide, by decide, by decide, by decide⟩
  exact ⟨hlit, C5_mapped_ipv6_recurses s_addrPub4 8 8 8 8 hlit, by decide⟩

end Capture
